import Mathlib

/-!
Shallow embedding of the pdft inversion engine (`src/pdft/inversion.py`,
class `Inversion`) and proofs about it.

Modelling conventions:
* AO-basis matrices are functions `Fin n → Fin n → ℚ` (`Mat n`), where `n`
  is the basis-function count `nbf` shared by the reference molecule and all
  fragments (spec §3 invariant).  Exact rational arithmetic stands in for
  IEEE floats; no claim below concerns floating-point rounding.
* Grid-blocked arrays (`ingredients["density"]["da"]`, quadrature weights,
  basis values `PHI`) are `List (List ℚ)`: one inner list of point values per
  block.  Elementwise numpy operations become `vecAdd`/`vecSub`/`vecDot`.
* External collaborators (the psi4 SCF solve `frag.scf`, `np.linalg.pinv`)
  are parameters of the embedding: the theorems hold for every behaviour of
  those collaborators.
* Python exceptions become an error type `PdftError`; functions that can
  raise return `Except PdftError _`.  The names follow the spec's error
  taxonomy (§7); each constructor is annotated with the concrete Python
  exception it models.
-/

namespace PDFT

/-- AO-basis square matrix of rationals (`nbf × nbf` numpy array). -/
abbrev Mat (n : Nat) := Fin n → Fin n → ℚ

/-- Rank-4 tensor (`nbf × nbf × nbf × nbf` numpy array), used for the
two-electron repulsion integrals and the Zhang-Carter response tensor. -/
abbrev T4 (n : Nat) := Fin n → Fin n → Fin n → Fin n → ℚ

/-- Matrix transpose (`.T` in numpy). -/
def matTrans {n : Nat} (M : Mat n) : Mat n := fun i j => M j i

/-- Elementwise sum of two numpy vectors (`x + y`). -/
def vecAdd : List ℚ → List ℚ → List ℚ
  | x :: xs, y :: ys => (x + y) :: vecAdd xs ys
  | _, _ => []

/-- Elementwise difference of two numpy vectors (`x - y`). -/
def vecSub : List ℚ → List ℚ → List ℚ
  | x :: xs, y :: ys => (x - y) :: vecSub xs ys
  | _, _ => []

/-- Grid contraction `contract('p,p->', x, y)`: the weighted dot product. -/
def vecDot : List ℚ → List ℚ → ℚ
  | x :: xs, y :: ys => x * y + vecDot xs ys
  | _, _ => 0

/-- Source `np.zeros_like` for a vector of length `k`. -/
def vecZeros : Nat → List ℚ
  | 0 => []
  | k + 1 => 0 :: vecZeros k

/-- A fragment, as consumed by the inversion engine (external-collaborator
contract, spec §6).  `eigs_a i` is `frag.eigs_a.np[i]`; `Ca i k` is
`frag.Ca.np[i, k]` (row `i`, column `k`); `orb_a i b r` is
`frag.orbitals["alpha_r"][str(i)][block b][point r]`; `da_r` is
`frag.ingredients["density"]["da"]` (one array per block); `npoints_total`
is the length of the x-coordinate array of the fragment's `Vpot` grid. -/
structure Fragment (n : Nat) where
  energy : ℚ
  Enuc : ℚ
  nalpha : Nat
  nbeta : Nat
  nbf : Nat
  Da : Mat n
  Db : Mat n
  Ca : Nat → Nat → ℚ
  Cb : Nat → Nat → ℚ
  eigs_a : Nat → ℚ
  eigs_b : Nat → ℚ
  da_r : List (List ℚ)
  db_r : List (List ℚ)
  orb_a : Nat → Nat → Nat → ℚ
  orb_b : Nat → Nat → Nat → ℚ
  npoints_total : Nat

/-- The reference molecule (spec §6: superset of the fragment contract,
plus grid block count `nblocks`, per-block quadrature weights `w`, the
two-electron repulsion tensor `eri` (`mints.ao_eri()`), and for each block
the basis values `PHI` (`blocks_phi`) and the local-to-global basis-function
index map `functions_local_to_global` (`blocks_lpos`)). -/
structure Molecule (n : Nat) where
  energy : ℚ
  Enuc : ℚ
  nalpha : Nat
  nbeta : Nat
  Da : Mat n
  Db : Mat n
  da_r : List (List ℚ)
  db_r : List (List ℚ)
  w : List (List ℚ)
  eri : T4 n
  nblocks : Nat
  blocks_phi : List (List (List ℚ))
  blocks_lpos : List (List Nat)
  npoints_total : Nat

/-- Error taxonomy (spec §7).  Each constructor models a concrete Python
exception site in `inversion.py`:
* `configurationError`: the `ValueError` raised by `assert_grid_elements`
  when grid densities are missing (lines 37-41);
* `indexError`: the `IndexError` Python raises at `self.frags[0]` when the
  fragment list is empty (line 40);
* `gridMismatchError`: the `ValueError` raised on differing grid point
  counts (line 47);
* `blocksInconsistent`: the `Exception` raised by `vp_wy_r` when the stored
  block count disagrees with the molecule's (line 293);
* `unimplementedVariantError`: the unequal-occupation path of `vp_zc`; the
  commented-out `else` branch leaves `x` unassigned, so Python raises an
  `UnboundLocalError` at `np.linalg.pinv(x)` (line 413) — the spec's
  taxonomy names this failure UnimplementedVariantError;
* `maxIterationsExceeded`: the `Exception` raised by `vp_handler` at
  `step == maxiter` (line 279). -/
inductive PdftError
  | configurationError
  | indexError
  | gridMismatchError
  | blocksInconsistent
  | unimplementedVariantError
  | maxIterationsExceeded
deriving DecidableEq, Repr

/-- Source `assert_grid_elements` (lines 31-51): checks that grid densities are
available for the molecule and for the first fragment, then compares the
total grid point counts of the molecule and of the **first** fragment; on
success returns the molecule's block count. -/
def assert_grid_elements {n : Nat} (mol : Molecule n) (frags : List (Fragment n)) :
    Except PdftError Nat :=
  if mol.da_r.length = 0 then .error .configurationError
  else
    match frags with
    | [] => .error .indexError
    | f0 :: _ =>
      if f0.da_r.length = 0 then .error .configurationError
      else if mol.npoints_total ≠ f0.npoints_total then .error .gridMismatchError
      else .ok mol.nblocks

/-- Source `get_frag_energies` (lines 55-62): sum of fragment energies. -/
def get_frag_energies {n : Nat} (frags : List (Fragment n)) : ℚ :=
  frags.foldl (fun acc f => acc + f.energy) 0

/-- Source `get_frag_densities_nm` (lines 64-74): elementwise sum of the fragment
AO density matrices, each channel accumulated by `axpy` from a zero matrix. -/
def get_frag_densities_nm {n : Nat} (frags : List (Fragment n)) : Mat n × Mat n :=
  (frags.foldl (fun acc f => acc + f.Da) (0 : Mat n),
   frags.foldl (fun acc f => acc + f.Db) (0 : Mat n))

/-- Source `get_frag_densities_r` (lines 76-92): per grid block, the elementwise
sum over fragments of the blocked grid densities, starting from
`np.zeros_like` of the molecule's block.  The source builds both channels in
one loop over `range(self.nblocks)` appending to two lists; the `List.map`
over `List.range` below produces the same lists. -/
def get_frag_densities_r {n : Nat} (mol : Molecule n) (frags : List (Fragment n)) :
    List (List ℚ) × List (List ℚ) :=
  ((List.range mol.nblocks).map fun b =>
      frags.foldl (fun acc f => vecAdd acc (f.da_r.getD b [])) (vecZeros (mol.da_r.getD b []).length),
   (List.range mol.nblocks).map fun b =>
      frags.foldl (fun acc f => vecAdd acc (f.db_r.getD b [])) (vecZeros (mol.db_r.getD b []).length))

/-- Source `get_delta_density(option="grid")` (lines 98-109): per block, the
difference (fragment aggregate − molecule) for each spin channel, plus the
running `l1error`: for each block and channel, the absolute value of the
grid-weighted integral `contract('p,p->', block_dd, w[block])` is added.
The source accumulates the two lists and the scalar in one loop over
`range(self.nblocks)`; the maps/sum below build the same values. -/
def get_delta_density_grid {n : Nat} (mol : Molecule n)
    (frag_da_r frag_db_r : List (List ℚ)) :
    List (List ℚ) × List (List ℚ) × ℚ :=
  ((List.range mol.nblocks).map fun b => vecSub (frag_da_r.getD b []) (mol.da_r.getD b []),
   (List.range mol.nblocks).map fun b => vecSub (frag_db_r.getD b []) (mol.db_r.getD b []),
   ((List.range mol.nblocks).map fun b =>
      |vecDot (vecSub (frag_da_r.getD b []) (mol.da_r.getD b [])) (mol.w.getD b [])| +
      |vecDot (vecSub (frag_db_r.getD b []) (mol.db_r.getD b [])) (mol.w.getD b [])|).sum)

/-- Source `get_delta_density(option="matrix")` (lines 111-114): molecule density
minus aggregate fragment density, per channel, in AO-matrix form. -/
def get_delta_density_matrix {n : Nat} (mol : Molecule n)
    (frag_da_nm frag_db_nm : Mat n) : Mat n × Mat n :=
  (mol.Da - frag_da_nm, mol.Db - frag_db_nm)

/-- Source `get_ep` (lines 116-123): partition energy, reference non-nuclear energy
minus the sum of fragment non-nuclear energies. -/
def get_ep {n : Nat} (mol : Molecule n) (frags : List (Fragment n)) : ℚ :=
  frags.foldl (fun acc f => acc - (f.energy - f.Enuc)) (mol.energy - mol.Enuc)

/-- Source `vp_dd` (lines 353-360): the density-difference update returns the
matrix residual unchanged for each channel. -/
def vp_dd {n : Nat} (dd_a dd_b : Mat n) : Mat n × Mat n :=
  (dd_a, dd_b)

/-- One channel of `vp_zpm`:
`(-0.5) * contract('imlj, ml->ij', ao_eri, dd)` (lines 349-350). -/
def zpm_channel {n : Nat} (mol : Molecule n) (dd : Mat n) : Mat n :=
  fun i j => (-(1 / 2 : ℚ)) * ∑ m, ∑ l, mol.eri i m l j * dd m l

/-- Source `vp_zpm` (lines 344-351): the Zhao-Morrison-Parr (ResponseMatrix)
update, the same contraction applied to each channel's residual. -/
def vp_zpm {n : Nat} (mol : Molecule n) (dd_a dd_b : Mat n) : Mat n × Mat n :=
  (zpm_channel mol dd_a, zpm_channel mol dd_b)

/-- The alpha-channel orbital-response kernel of `vp_wy_r` (lines 307-323):
for block `b` and grid points `r1`, `r2`, the sum over fragments and over
occupied/virtual alpha-orbital pairs of the product of the four real-space
orbital values divided by the orbital-energy gap.  (The beta-channel loop of
the source, lines 325-330, is commented out, so `x_b` stays `np.zeros` and
is never used.) -/
def wy_x_a {n : Nat} (frags : List (Fragment n)) (b r1 r2 : Nat) : ℚ :=
  (frags.map fun f =>
    ∑ i ∈ Finset.range f.nalpha, ∑ v ∈ Finset.Ico f.nalpha f.nbf,
      f.orb_a i b r1 * f.orb_a v b r1 * f.orb_a v b r2 * f.orb_a i b r2 /
        (f.eigs_a i - f.eigs_a v)).sum

/-- The per-block denominator operator of `vp_wy_r` (line 334): the
alpha-channel kernel added to itself, `x_a[r1, :] + x_a[r1, :]`. -/
def wy_denom {n : Nat} (frags : List (Fragment n)) (b r1 r2 : Nat) : ℚ :=
  wy_x_a frags b r1 r2 + wy_x_a frags b r1 r2

/-- Source `dvp_block` of `vp_wy_r` (lines 332-334): at point `p` of block `b`,
`Σ_{r1} (1 / (x_a[r1, p] + x_a[r1, p])) * dd[block][p] * w[p]`.  The number
of points of the block is the length of its weight array (`grid_block.w()`
and `grid_block.npoints()` describe the same block).  Division is exact
rational division (`q / 0 = 0` in `ℚ`; numpy would emit `inf`, a numerical
failure the source does not intercept, spec §7). -/
def wy_dvp_block {n : Nat} (mol : Molecule n) (frags : List (Fragment n))
    (dd : List (List ℚ)) (b p : Nat) : ℚ :=
  ∑ r1 ∈ Finset.range (mol.w.getD b []).length,
    1 / wy_denom frags b r1 p * (dd.getD b []).getD p 0 * (mol.w.getD b []).getD p 0

/-- Source `vtmp` of `vp_wy_r` (line 339):
`contract('pb,p,p,pa->ab', phi, dvp_block, w, phi)`. -/
def wy_vtmp {n : Nat} (mol : Molecule n) (frags : List (Fragment n))
    (dd : List (List ℚ)) (b a c : Nat) : ℚ :=
  ∑ p ∈ Finset.range (mol.w.getD b []).length,
    ((mol.blocks_phi.getD b []).getD p []).getD c 0 * wy_dvp_block mol frags dd b p *
      (mol.w.getD b []).getD p 0 * ((mol.blocks_phi.getD b []).getD p []).getD a 0

/-- The accumulated `dvp` matrix of `vp_wy_r` (lines 286, 298-340): over all
blocks, the symmetrized `vtmp` scattered into global AO indices through
`lpos` (`dvp[(lpos[:, None], lpos)] += 0.5 * (vtmp + vtmp.T)`).  The
`functions_local_to_global` list is injective, so numpy's fancy-indexed
`+=` agrees with this indexed sum. -/
def wy_dvp {n : Nat} (mol : Molecule n) (frags : List (Fragment n))
    (dd : List (List ℚ)) : Mat n :=
  fun i j =>
    ∑ b ∈ Finset.range mol.nblocks,
      ∑ a ∈ Finset.range (mol.blocks_lpos.getD b []).length,
        ∑ c ∈ Finset.range (mol.blocks_lpos.getD b []).length,
          if (mol.blocks_lpos.getD b []).getD a 0 = (i : Nat) ∧
             (mol.blocks_lpos.getD b []).getD c 0 = (j : Nat)
          then (1 / 2 : ℚ) * (wy_vtmp mol frags dd b a c + wy_vtmp mol frags dd b c a)
          else 0

/-- Source `vp_wy_r` (lines 281-342): the grid-based Wu-Yang (OrbitalResponse)
update.  `dd = dd_a + dd_b` concatenates the two Python **lists** of block
arrays (line 287), so only the first `nblocks` entries — the alpha-channel
residual blocks — are ever indexed.  After the consistency check on the
block count (lines 293-294) the same matrix `dvp` is returned for both spin
channels (line 342). -/
def vp_wy_r {n : Nat} (nblocks : Nat) (mol : Molecule n) (frags : List (Fragment n))
    (dd_a dd_b : List (List ℚ)) : Except PdftError (Mat n × Mat n) :=
  if nblocks ≠ mol.nblocks then .error .blocksInconsistent
  else .ok (wy_dvp mol frags (dd_a ++ dd_b), wy_dvp mol frags (dd_a ++ dd_b))

/-- The scalar built by one fragment's pass of the `vp_zc` loop for one
occupied/virtual pair and one coefficient matrix:
`contract('mi, na, li, sa -> mnls', C[None,i], C[None,a], C[None,i], C[None,a])`
with `C[None, k]` the `1 × nbf` row `k` of `C`, which contracts the labels
`i` and `a` away and leaves the `(1,1,1,1)` value
`(Σ_k C[i,k]²) · (Σ_k C[a,k]²)`. -/
def zc_rowdot {n : Nat} (C : Nat → Nat → ℚ) (i : Nat) : ℚ :=
  ∑ k ∈ Finset.range n, C i k * C i k

/-- The response tensor `x` built by one fragment's pass of the `vp_zc`
loop (lines 378-389): `x` is reset to `np.zeros((nbf,nbf,nbf,nbf))` and the
`(1,1,1,1)` result of each contraction, divided by the orbital-energy gap,
is broadcast-added over the whole tensor — so `x` is constant. -/
def zc_x_frag (n : Nat) (mol : Molecule n) (f : Fragment n) : T4 n :=
  fun _ _ _ _ =>
    ∑ i ∈ Finset.range mol.nalpha, ∑ a ∈ Finset.Ico mol.nalpha n,
      (zc_rowdot (n := n) f.Ca i * zc_rowdot (n := n) f.Ca a / (f.eigs_a i - f.eigs_a a) +
       zc_rowdot (n := n) f.Cb i * zc_rowdot (n := n) f.Cb a / (f.eigs_b i - f.eigs_b a))

/-- The fragment loop of `vp_zc` (lines 374-392): python's local `x` starts
unbound (`none`); each fragment's pass assigns a freshly zeroed tensor when
`molecule.nalpha == molecule.nbeta` and leaves `x` untouched otherwise (the
`else` branch is commented out). -/
def zc_x {n : Nat} (mol : Molecule n) (frags : List (Fragment n)) : Option (T4 n) :=
  frags.foldl
    (fun acc f => if mol.nalpha = mol.nbeta then some (zc_x_frag n mol f) else acc) none

set_option linter.unusedVariables false in
/-- Source `vp_zc` (lines 362-417): the Zhang-Carter update.  `rcond` is accepted
and never used (the source calls `np.linalg.pinv(x)` with its default).
`pinv` is the external numpy routine, a parameter of the embedding; note
that on a 4-dimensional array `np.linalg.pinv` acts on the trailing two
axes.  When the loop leaves `x` unbound, `np.linalg.pinv(x)` raises
(`unimplementedVariantError`).  Otherwise
`dvp = contract('mnls, ls -> mn', x_inv, dd)` with `dd = da_mn + db_mn` is
symmetrized and returned for both channels. -/
def vp_zc {n : Nat} (mol : Molecule n) (frags : List (Fragment n))
    (pinv : T4 n → T4 n) (da_mn db_mn : Mat n) (rcond : ℚ := 1 / 1000000) :
    Except PdftError (Mat n × Mat n) :=
  let dd := da_mn + db_mn
  match zc_x mol frags with
  | none => .error .unimplementedVariantError
  | some x =>
    let x_inv := pinv x
    let dvp0 : Mat n := fun m n' => ∑ l, ∑ s, x_inv m n' l s * dd l s
    let dvp : Mat n := (1 / 2 : ℚ) • (dvp0 + matTrans dvp0)
    .ok (dvp, dvp)

/-- The engine attributes mutated across iterations (`self.frags`,
`self.nblocks`, `self.frag_energy`, `self.frag_da_nm`, …, `self.ep`,
`self.vp`; `ep` and `vp` start as `None`). -/
structure EngineSt (n : Nat) where
  frags : List (Fragment n)
  nblocks : Nat
  frag_energy : ℚ
  frag_da_nm : Mat n
  frag_db_nm : Mat n
  frag_da_r : List (List ℚ)
  frag_db_r : List (List ℚ)
  ep : Option ℚ
  vp : Option (Mat n × Mat n)

/-- Source `Inversion.__init__` (lines 7-29): validate grids, then aggregate the
fragment energies and densities.  The `Except` bind places
`assert_grid_elements` before any aggregation, as in the source. -/
def Inversion.init {n : Nat} (mol : Molecule n) (frags : List (Fragment n)) :
    Except PdftError (EngineSt n) := do
  let nblocks ← assert_grid_elements mol frags
  let dnm := get_frag_densities_nm frags
  let dr := get_frag_densities_r mol frags
  .ok { frags := frags, nblocks := nblocks, frag_energy := get_frag_energies frags,
        frag_da_nm := dnm.1, frag_db_nm := dnm.2,
        frag_da_r := dr.1, frag_db_r := dr.2, ep := none, vp := none }

/-- The four inversion methods dispatched in `vp_handler` (lines 213-220). -/
inductive Method
  | zpm
  | dd
  | zc
  | wy_r
deriving DecidableEq, Repr

/-- The three accepted initial-guess configuration values
(lines 181-191). -/
inductive Guess
  | hartree
  | xc
  | hxc
deriving DecidableEq, Repr

/-- The fixed configuration of one `vp_handler` run: the molecule, the
selected method, the step size `beta`, and the external collaborators — the
per-fragment SCF re-solve (`frag.scf(vp_mn=[vp_a, vp_b],
get_ingredients=True, get_orbitals=True)`, which replaces the fragment's
state) and numpy's `pinv`. -/
structure Config (n : Nat) where
  mol : Molecule n
  method : Method
  beta : ℚ
  scf : Fragment n → Mat n × Mat n → Fragment n
  pinv : T4 n → T4 n

/-- The handler-local loop state: the engine attributes plus the local
accumulators `vp_a`, `vp_b` and the history lists `l1_list`, `ep_list`. -/
structure LoopSt (n : Nat) where
  engine : EngineSt n
  vp_a : Mat n
  vp_b : Mat n
  l1_list : List ℚ
  ep_list : List ℚ

/-- The fragment re-solve step of one loop pass (lines 197-198): every
fragment is re-solved by the external SCF under the current potential
(`frag.scf(vp_mn=[vp_a, vp_b], get_ingredients=True, get_orbitals=True)`),
replacing the fragment's state. -/
def resolveFrags {n : Nat} (cfg : Config n) (s : LoopSt n) : List (Fragment n) :=
  s.engine.frags.map fun f => cfg.scf f (s.vp_a, s.vp_b)

/-- The "#Choose inversion method" dispatch of `vp_handler`
(lines 212-220): three methods consume the matrix-form residual, `wy_r`
consumes the grid-form residual blocks. -/
def dispatch {n : Nat} (cfg : Config n) (nblocks : Nat) (frags : List (Fragment n))
    (gdd : List (List ℚ) × List (List ℚ) × ℚ) (mdd : Mat n × Mat n) :
    Except PdftError (Mat n × Mat n) :=
  match cfg.method with
  | .zpm => .ok (vp_zpm cfg.mol mdd.1 mdd.2)
  | .dd => .ok (vp_dd mdd.1 mdd.2)
  | .zc => vp_zc cfg.mol frags cfg.pinv mdd.1 mdd.2
  | .wy_r => vp_wy_r nblocks cfg.mol frags gdd.1 gdd.2.1

/-- One pass of the `vp_handler` loop body (lines 196-227): re-solve every
fragment under the current potential, recompute the aggregates and the
partition energy, compute both residual forms, append to the histories,
dispatch to the selected update, and accumulate
`vp ← vp + beta · dvp` (`axpy`), storing `self.vp = [vp_a, vp_b]`.  The
diagnostic `print`/plot code (lines 209-210, 229-276) is observational and
not modelled (spec §4.4 step 6).  A strategy exception propagates as
`.error`. -/
def iterBody {n : Nat} (cfg : Config n) (s : LoopSt n) : Except PdftError (LoopSt n) :=
  (dispatch cfg s.engine.nblocks (resolveFrags cfg s)
      (get_delta_density_grid cfg.mol
        (get_frag_densities_r cfg.mol (resolveFrags cfg s)).1
        (get_frag_densities_r cfg.mol (resolveFrags cfg s)).2)
      (get_delta_density_matrix cfg.mol
        (get_frag_densities_nm (resolveFrags cfg s)).1
        (get_frag_densities_nm (resolveFrags cfg s)).2)).map fun dvp =>
    { engine := { frags := resolveFrags cfg s, nblocks := s.engine.nblocks,
                  frag_energy := get_frag_energies (resolveFrags cfg s),
                  frag_da_nm := (get_frag_densities_nm (resolveFrags cfg s)).1,
                  frag_db_nm := (get_frag_densities_nm (resolveFrags cfg s)).2,
                  frag_da_r := (get_frag_densities_r cfg.mol (resolveFrags cfg s)).1,
                  frag_db_r := (get_frag_densities_r cfg.mol (resolveFrags cfg s)).2,
                  ep := some (get_ep cfg.mol (resolveFrags cfg s)),
                  vp := some (fun i j => s.vp_a i j + cfg.beta * dvp.1 i j,
                              fun i j => s.vp_b i j + cfg.beta * dvp.2 i j) },
      vp_a := fun i j => s.vp_a i j + cfg.beta * dvp.1 i j,
      vp_b := fun i j => s.vp_b i j + cfg.beta * dvp.2 i j,
      l1_list := s.l1_list ++ [(get_delta_density_grid cfg.mol
        (get_frag_densities_r cfg.mol (resolveFrags cfg s)).1
        (get_frag_densities_r cfg.mol (resolveFrags cfg s)).2).2.2],
      ep_list := s.ep_list ++ [get_ep cfg.mol (resolveFrags cfg s)] }

/-- The observable outcome of a `vp_handler` call:
* `earlyReturn`: one of the stubbed guess modes returned immediately,
  leaving the engine state untouched;
* `raised e s`: the exception `e` was raised at the end of a loop pass, with
  the engine and history state at raise time `s`;
* `strategyRaised e`: an update strategy raised `e` mid-pass;
* `loopFinished`: the `for` loop ended without raising (unreachable: the
  `range(maxiter+1)` loop always reaches `step == maxiter`). -/
inductive HandlerOutcome (n : Nat)
  | earlyReturn (E : EngineSt n)
  | raised (e : PdftError) (s : LoopSt n)
  | strategyRaised (e : PdftError)
  | loopFinished (s : LoopSt n)

/-- The `for step in range(maxiter+1)` loop of `vp_handler` (lines
195-279), fuelled by the remaining pass count: run the body, then
`if step == maxiter: raise` (line 278-279). -/
def vp_loop {n : Nat} (cfg : Config n) (maxiter : Nat) :
    Nat → Nat → LoopSt n → HandlerOutcome n
  | 0, _, s => .loopFinished s
  | fuel + 1, step, s =>
    match iterBody cfg s with
    | .error e => .strategyRaised e
    | .ok s' =>
      if step = maxiter then .raised .maxIterationsExceeded s'
      else vp_loop cfg maxiter fuel (step + 1) s'

set_option linter.unusedVariables false in
/-- Source `vp_handler` (lines 175-279): fresh zero `vp_a`, `vp_b`; if an
initial-guess mode is selected, return immediately (lines 181-191, all
three branches are stubs); otherwise run the loop from step 0 with empty
histories.  `atol` is accepted (default `1e-5`) and never read. -/
def vp_handler {n : Nat} (cfg : Config n) (maxiter : Nat) (atol : ℚ)
    (guess : Option Guess) (E : EngineSt n) : HandlerOutcome n :=
  match guess with
  | some _ => .earlyReturn E
  | none =>
    vp_loop cfg maxiter (maxiter + 1) 0
      { engine := E, vp_a := 0, vp_b := 0, l1_list := [], ep_list := [] }

/-- A fragment transformation that may replace the beta-channel data
(`nbeta`, `Db`, `Cb`, `eigs_b`, `db_r`, `orb_b`) arbitrarily but preserves
the alpha-channel data read by `vp_wy_r`. -/
def alphaDataPreserving {n : Nat} (g : Fragment n → Fragment n) : Prop :=
  ∀ f : Fragment n, (g f).nalpha = f.nalpha ∧ (g f).nbf = f.nbf ∧
    (g f).eigs_a = f.eigs_a ∧ (g f).orb_a = f.orb_a

/-- Whether an `Except` computation succeeded (Python: no exception was
raised). -/
def exceptIsOk {ε α : Type} : Except ε α → Bool
  | .ok _ => true
  | .error _ => false

/-- Shared concrete reference molecule over one basis function: one grid
block, one grid point of weight 1, grid point count 12. -/
def exMol : Molecule 1 where
  energy := 0
  Enuc := 0
  nalpha := 1
  nbeta := 1
  Da := fun _ _ => 1
  Db := fun _ _ => 1
  da_r := [[1]]
  db_r := [[1]]
  w := [[1]]
  eri := fun _ _ _ _ => 0
  nblocks := 1
  blocks_phi := [[[1]]]
  blocks_lpos := [[0]]
  npoints_total := 12

/-- Shared concrete fragment over one basis function with a configurable
grid point count. -/
def exFrag (pts : Nat) : Fragment 1 where
  energy := 0
  Enuc := 0
  nalpha := 1
  nbeta := 1
  nbf := 1
  Da := fun _ _ => 1 / 2
  Db := fun _ _ => 1 / 2
  Ca := fun _ _ => 1
  Cb := fun _ _ => 1
  eigs_a := fun _ => 0
  eigs_b := fun _ => 0
  da_r := [[1 / 2]]
  db_r := [[1 / 2]]
  orb_a := fun _ _ _ => 0
  orb_b := fun _ _ _ => 0
  npoints_total := pts

/-- Shared concrete engine configuration for witnesses: the trivial
external SCF (identity) and `pinv` (identity), method `dd`, step size 1. -/
def exCfg : Config 1 where
  mol := exMol
  method := .dd
  beta := 1
  scf := fun f _ => f
  pinv := id

/-- Shared concrete engine state for witnesses. -/
def exEng : EngineSt 1 where
  frags := [exFrag 12]
  nblocks := 1
  frag_energy := 0
  frag_da_nm := fun _ _ => 1 / 2
  frag_db_nm := fun _ _ => 1 / 2
  frag_da_r := [[1 / 2]]
  frag_db_r := [[1 / 2]]
  ep := none
  vp := none

/-! ## Helper lemmas -/

lemma vecAdd_length : ∀ xs ys : List ℚ, (vecAdd xs ys).length = min xs.length ys.length
  | [], [] => rfl
  | [], _ :: _ => rfl
  | _ :: _, [] => rfl
  | x :: xs, y :: ys => by
    simp [vecAdd, vecAdd_length xs ys, Nat.succ_min_succ]

lemma vecAdd_getD : ∀ (xs ys : List ℚ) (p : Nat), p < xs.length → p < ys.length →
    (vecAdd xs ys).getD p 0 = xs.getD p 0 + ys.getD p 0
  | [], _, _, h1, _ => absurd h1 (by simp)
  | _ :: _, [], _, _, h2 => absurd h2 (by simp)
  | x :: xs, y :: ys, 0, _, _ => rfl
  | x :: xs, y :: ys, p + 1, h1, h2 => by
    simpa [vecAdd] using
      vecAdd_getD xs ys p (Nat.succ_lt_succ_iff.mp (by simpa using h1))
        (Nat.succ_lt_succ_iff.mp (by simpa using h2))

lemma vecSub_getD : ∀ (xs ys : List ℚ) (p : Nat), p < xs.length → p < ys.length →
    (vecSub xs ys).getD p 0 = xs.getD p 0 - ys.getD p 0
  | [], _, _, h1, _ => absurd h1 (by simp)
  | _ :: _, [], _, _, h2 => absurd h2 (by simp)
  | x :: xs, y :: ys, 0, _, _ => rfl
  | x :: xs, y :: ys, p + 1, h1, h2 => by
    simpa [vecSub] using
      vecSub_getD xs ys p (Nat.succ_lt_succ_iff.mp (by simpa using h1))
        (Nat.succ_lt_succ_iff.mp (by simpa using h2))

lemma vecZeros_length : ∀ k, (vecZeros k).length = k
  | 0 => rfl
  | k + 1 => by simp [vecZeros, vecZeros_length k]

lemma vecZeros_getD : ∀ k p, (vecZeros k).getD p 0 = 0
  | 0, _ => rfl
  | k + 1, 0 => rfl
  | k + 1, p + 1 => by simpa [vecZeros] using vecZeros_getD k p

lemma rangeMap_getD {α : Type} (f : Nat → α) (d : α) (k b : Nat) (hb : b < k) :
    ((List.range k).map f).getD b d = f b := by
  simp [List.getD_eq_getElem?_getD, List.getElem?_map, List.getElem?_range, hb]

lemma range_map_sum (f : Nat → ℚ) : ∀ k, ((List.range k).map f).sum = ∑ b ∈ Finset.range k, f b
  | 0 => by simp
  | k + 1 => by
    rw [List.range_succ, List.map_append, List.sum_append, Finset.sum_range_succ,
      range_map_sum f k]
    simp

lemma foldl_matAdd_apply {n : Nat} (sel : Fragment n → Mat n) :
    ∀ (frags : List (Fragment n)) (A : Mat n) (i j : Fin n),
      (frags.foldl (fun acc f => acc + sel f) A) i j = A i j + (frags.map fun f => sel f i j).sum
  | [], A, i, j => by simp
  | f :: fs, A, i, j => by
    simp only [List.foldl_cons, List.map_cons, List.sum_cons]
    rw [foldl_matAdd_apply sel fs (A + sel f) i j]
    show A i j + sel f i j + _ = _
    ring

lemma foldl_vecAdd_getD {n : Nat} (sel : Fragment n → List ℚ) (L : Nat) :
    ∀ (frags : List (Fragment n)) (acc : List ℚ), acc.length = L →
      (∀ f ∈ frags, (sel f).length = L) → ∀ p, p < L →
      (frags.foldl (fun a f => vecAdd a (sel f)) acc).getD p 0 =
        acc.getD p 0 + (frags.map fun f => (sel f).getD p 0).sum
  | [], acc, _, _, p, _ => by simp
  | f :: fs, acc, hacc, hf, p, hp => by
    have hsl : (sel f).length = L := hf f (by simp)
    have hlen : (vecAdd acc (sel f)).length = L := by
      rw [vecAdd_length, hacc, hsl]; simp
    simp only [List.foldl_cons, List.map_cons, List.sum_cons]
    rw [foldl_vecAdd_getD sel L fs (vecAdd acc (sel f)) hlen
        (fun g hg => hf g (by simp [hg])) p hp,
      vecAdd_getD acc (sel f) p (by omega) (by omega)]
    ring

lemma zc_x_foldl_ne {n : Nat} (mol : Molecule n) (h : mol.nalpha ≠ mol.nbeta) :
    ∀ (frags : List (Fragment n)) (acc : Option (T4 n)),
      frags.foldl
        (fun acc f => if mol.nalpha = mol.nbeta then some (zc_x_frag n mol f) else acc)
        acc = acc
  | [], _ => rfl
  | f :: fs, acc => by
    rw [List.foldl_cons, if_neg h, zc_x_foldl_ne mol h fs acc]

lemma zc_x_of_ne {n : Nat} (mol : Molecule n) (frags : List (Fragment n))
    (h : mol.nalpha ≠ mol.nbeta) : zc_x mol frags = none := by
  rw [zc_x]; exact zc_x_foldl_ne mol h frags none

lemma zc_x_foldl_last {n : Nat} (mol : Molecule n) (h : mol.nalpha = mol.nbeta) :
    ∀ (fs : List (Fragment n)) (f : Fragment n) (acc : Option (T4 n)),
      (fs ++ [f]).foldl
        (fun acc f => if mol.nalpha = mol.nbeta then some (zc_x_frag n mol f) else acc)
        acc = some (zc_x_frag n mol f)
  | [], f, acc => by simp [if_pos h]
  | g :: fs, f, acc => by
    rw [List.cons_append, List.foldl_cons]
    exact zc_x_foldl_last mol h fs f _

lemma zc_x_last {n : Nat} (mol : Molecule n) (fs : List (Fragment n)) (f : Fragment n)
    (h : mol.nalpha = mol.nbeta) : zc_x mol (fs ++ [f]) = some (zc_x_frag n mol f) := by
  rw [zc_x]; exact zc_x_foldl_last mol h fs f none

/-! ## Claim theorems -/

/-- Claim C9: selecting any of the three initial-guess configuration values
("hartree", "xc", "hxc") makes the inversion driver return immediately: no
fragment is re-solved, no update strategy is invoked, no history is
recorded, and the engine state (potential `vp`, partition energy `ep`,
aggregates) is returned unchanged. -/
theorem vp_handler_guess_stub {n : Nat} (cfg : Config n) (maxiter : Nat)
    (atol : ℚ) (g : Guess) (E : EngineSt n) :
    vp_handler cfg maxiter atol (some g) E = .earlyReturn E := rfl

/-- Claim C7: the ResponseMatrix update `vp_zpm` applies the identical
formula independently to each spin channel — the increment is
`−0.5 ×` the two-electron repulsion tensor contracted with that channel's
matrix residual over two of its four indices — and the increment is the
zero matrix whenever the residual is the zero matrix. -/
theorem vp_zpm_channelwise_formula_and_zero_law {n : Nat} (mol : Molecule n)
    (dd_a dd_b : Mat n) :
    vp_zpm mol dd_a dd_b = (zpm_channel mol dd_a, zpm_channel mol dd_b) ∧
    (∀ i j, zpm_channel mol dd_a i j =
      (-(1 / 2 : ℚ)) * ∑ m, ∑ l, mol.eri i m l j * dd_a m l) ∧
    zpm_channel mol (0 : Mat n) = (0 : Mat n) ∧
    vp_zpm mol (0 : Mat n) (0 : Mat n) = ((0 : Mat n), (0 : Mat n)) := by
  have hz : zpm_channel mol (0 : Mat n) = (0 : Mat n) := by
    funext i j
    simp [zpm_channel]
  exact ⟨rfl, fun i j => rfl, hz, by rw [vp_zpm, hz]⟩

/-- Claim C2: in "grid" mode the residual is (aggregate − reference) per
block and per spin channel, with scalar error the sum over blocks and
channels of the absolute value of the grid-weighted integral of the
per-block difference (absolute value taken after integrating each block);
"matrix" mode returns (reference − aggregate), the opposite sign. -/
theorem delta_density_sign_conventions {n : Nat} (mol : Molecule n)
    (fa fb : List (List ℚ)) (da_nm db_nm : Mat n) :
    (∀ b, b < mol.nblocks →
      (get_delta_density_grid mol fa fb).1.getD b [] =
        vecSub (fa.getD b []) (mol.da_r.getD b []) ∧
      (get_delta_density_grid mol fa fb).2.1.getD b [] =
        vecSub (fb.getD b []) (mol.db_r.getD b [])) ∧
    (∀ b p, b < mol.nblocks → p < (fa.getD b []).length → p < (mol.da_r.getD b []).length →
      ((get_delta_density_grid mol fa fb).1.getD b []).getD p 0 =
        (fa.getD b []).getD p 0 - (mol.da_r.getD b []).getD p 0) ∧
    (get_delta_density_grid mol fa fb).2.2 =
      ∑ b ∈ Finset.range mol.nblocks,
        (|vecDot (vecSub (fa.getD b []) (mol.da_r.getD b [])) (mol.w.getD b [])| +
         |vecDot (vecSub (fb.getD b []) (mol.db_r.getD b [])) (mol.w.getD b [])|) ∧
    get_delta_density_matrix mol da_nm db_nm = (mol.Da - da_nm, mol.Db - db_nm) ∧
    (get_delta_density_matrix mol da_nm db_nm).1 = -(da_nm - mol.Da) ∧
    (get_delta_density_matrix mol da_nm db_nm).2 = -(db_nm - mol.Db) := by
  refine ⟨fun b hb => ⟨?_, ?_⟩, fun b p hb hp1 hp2 => ?_, ?_, rfl,
    by simp [get_delta_density_matrix], by simp [get_delta_density_matrix]⟩
  · exact rangeMap_getD _ _ _ _ hb
  · exact rangeMap_getD _ _ _ _ hb
  · rw [show (get_delta_density_grid mol fa fb).1.getD b [] =
        vecSub (fa.getD b []) (mol.da_r.getD b []) from rangeMap_getD _ _ _ _ hb]
    exact vecSub_getD _ _ _ hp1 hp2
  · exact range_map_sum _ _

/-- Claim C8: the aggregate density is the exact elementwise sum of the
per-fragment densities, in AO-matrix form (each channel independently) and
in per-block grid form, for any number of fragments. -/
theorem aggregate_density_elementwise_sum {n : Nat} (mol : Molecule n)
    (frags : List (Fragment n)) :
    (∀ i j, (get_frag_densities_nm frags).1 i j = (frags.map fun f => f.Da i j).sum ∧
            (get_frag_densities_nm frags).2 i j = (frags.map fun f => f.Db i j).sum) ∧
    (∀ b p, b < mol.nblocks →
      (∀ f ∈ frags, (f.da_r.getD b []).length = (mol.da_r.getD b []).length) →
      p < (mol.da_r.getD b []).length →
      ((get_frag_densities_r mol frags).1.getD b []).getD p 0 =
        (frags.map fun f => (f.da_r.getD b []).getD p 0).sum) ∧
    (∀ b p, b < mol.nblocks →
      (∀ f ∈ frags, (f.db_r.getD b []).length = (mol.db_r.getD b []).length) →
      p < (mol.db_r.getD b []).length →
      ((get_frag_densities_r mol frags).2.getD b []).getD p 0 =
        (frags.map fun f => (f.db_r.getD b []).getD p 0).sum) := by
  refine ⟨fun i j => ⟨?_, ?_⟩, fun b p hb hf hp => ?_, fun b p hb hf hp => ?_⟩
  · show (frags.foldl (fun acc f => acc + f.Da) (0 : Mat n)) i j = _
    rw [foldl_matAdd_apply]; simp
  · show (frags.foldl (fun acc f => acc + f.Db) (0 : Mat n)) i j = _
    rw [foldl_matAdd_apply]; simp
  · rw [show (get_frag_densities_r mol frags).1.getD b [] =
        frags.foldl (fun a f => vecAdd a (f.da_r.getD b []))
          (vecZeros (mol.da_r.getD b []).length) from rangeMap_getD _ _ _ _ hb,
      foldl_vecAdd_getD (fun f => f.da_r.getD b []) (mol.da_r.getD b []).length frags _
        (vecZeros_length _) hf p hp, vecZeros_getD]
    ring
  · rw [show (get_frag_densities_r mol frags).2.getD b [] =
        frags.foldl (fun a f => vecAdd a (f.db_r.getD b []))
          (vecZeros (mol.db_r.getD b []).length) from rangeMap_getD _ _ _ _ hb,
      foldl_vecAdd_getD (fun f => f.db_r.getD b []) (mol.db_r.getD b []).length frags _
        (vecZeros_length _) hf p hp, vecZeros_getD]
    ring

/-- Claim C3: whenever the reference molecule's alpha occupation count
differs from its beta occupation count, the ZhangCarterResponse update
`vp_zc` raises: the unequal-occupation branch is unimplemented (commented
out), the response tensor is never assigned, and the failure modelled as
`unimplementedVariantError` (an `UnboundLocalError` in Python) occurs for
every fragment list and residual. -/
theorem vp_zc_unequal_occupation_raises {n : Nat} (mol : Molecule n)
    (frags : List (Fragment n)) (pinv : T4 n → T4 n) (da_mn db_mn : Mat n) (rcond : ℚ)
    (h : mol.nalpha ≠ mol.nbeta) :
    vp_zc mol frags pinv da_mn db_mn rcond = .error .unimplementedVariantError := by
  unfold vp_zc
  rw [zc_x_of_ne mol frags h]

/-- Witness for `vp_zc_unequal_occupation_raises` at a concrete
unequal-occupation molecule. -/
theorem vp_zc_unequal_occupation_raises_witness :
    ({ exMol with nalpha := 2 } : Molecule 1).nalpha ≠
      ({ exMol with nalpha := 2 } : Molecule 1).nbeta ∧
    vp_zc { exMol with nalpha := 2 } [exFrag 12] id (fun _ _ => 1) (fun _ _ => 1) (1 / 1000000) =
      .error .unimplementedVariantError :=
  ⟨by decide,
    vp_zc_unequal_occupation_raises { exMol with nalpha := 2 } [exFrag 12] id _ _ _ (by decide)⟩

/-- Claim C10: with more than one fragment (all systems of equal occupation),
the ZhangCarterResponse increment depends only on the last fragment: the
response tensor `x` is re-zeroed at the start of each fragment's pass, so
the tensor handed to the pseudo-inverse is the last fragment's alone, and
the update for `fs ++ [f]` equals the update for `[f]`. -/
theorem vp_zc_depends_only_on_last_fragment {n : Nat} (mol : Molecule n)
    (fs : List (Fragment n)) (f : Fragment n) (pinv : T4 n → T4 n)
    (da_mn db_mn : Mat n) (rcond : ℚ) (h : mol.nalpha = mol.nbeta) :
    zc_x mol (fs ++ [f]) = some (zc_x_frag n mol f) ∧
    vp_zc mol (fs ++ [f]) pinv da_mn db_mn rcond = vp_zc mol [f] pinv da_mn db_mn rcond := by
  have h1 : zc_x mol (fs ++ [f]) = some (zc_x_frag n mol f) := zc_x_last mol fs f h
  have h2 : zc_x mol [f] = some (zc_x_frag n mol f) := zc_x_last mol [] f h
  refine ⟨h1, ?_⟩
  unfold vp_zc
  rw [h1, h2]

/-- Witness for `vp_zc_depends_only_on_last_fragment`: two distinct
fragments, equal occupation. -/
theorem vp_zc_depends_only_on_last_fragment_witness :
    exMol.nalpha = exMol.nbeta ∧
    (zc_x exMol [exFrag 12, exFrag 10] = some (zc_x_frag 1 exMol (exFrag 10)) ∧
     vp_zc exMol [exFrag 12, exFrag 10] id (fun _ _ => 1) (fun _ _ => 1) (1 / 1000000) =
       vp_zc exMol [exFrag 10] id (fun _ _ => 1) (fun _ _ => 1) (1 / 1000000)) :=
  ⟨by decide,
    vp_zc_depends_only_on_last_fragment exMol [exFrag 12] (exFrag 10) id _ _ _ (by decide)⟩

/-- Claim C5, counterexample: the claim says a grid point count mismatch
between the reference and **any** fragment raises `GridMismatchError` at
construction.  But `assert_grid_elements` inspects only `self.frags[0]`: a
second fragment with 10 grid points against a reference with 12 is not
detected, and construction succeeds. -/
theorem grid_mismatch_second_fragment_not_detected :
    (exFrag 10).npoints_total ≠ exMol.npoints_total ∧
    exceptIsOk (Inversion.init exMol [exFrag 12, exFrag 10]) = true :=
  ⟨by decide, rfl⟩

/-- Claim C5, amended: a grid point count mismatch between the reference and
the **first** fragment raises `GridMismatchError` during construction,
before any energy or density aggregation (the `Except` bind sequences
`assert_grid_elements` before the aggregation calls); mismatches of later
fragments are not checked. -/
theorem grid_mismatch_first_fragment_raises {n : Nat} (mol : Molecule n)
    (f0 : Fragment n) (rest : List (Fragment n)) (hm : ¬mol.da_r.length = 0)
    (hf : ¬f0.da_r.length = 0) (hne : mol.npoints_total ≠ f0.npoints_total) :
    assert_grid_elements mol (f0 :: rest) = .error .gridMismatchError ∧
    Inversion.init mol (f0 :: rest) = .error .gridMismatchError := by
  have ha : assert_grid_elements mol (f0 :: rest) = .error .gridMismatchError := by
    rw [assert_grid_elements, if_neg hm]
    show (if f0.da_r.length = 0 then _ else _) = _
    rw [if_neg hf, if_pos hne]
  refine ⟨ha, ?_⟩
  rw [Inversion.init, ha]
  rfl

/-- Witness for `grid_mismatch_first_fragment_raises`: first fragment has
10 points, reference has 12 (the spec §8 scenario). -/
theorem grid_mismatch_first_fragment_raises_witness :
    (¬exMol.da_r.length = 0 ∧ ¬(exFrag 10).da_r.length = 0 ∧
      exMol.npoints_total ≠ (exFrag 10).npoints_total) ∧
    (assert_grid_elements exMol (exFrag 10 :: [exFrag 12]) = .error .gridMismatchError ∧
     Inversion.init exMol (exFrag 10 :: [exFrag 12]) = .error .gridMismatchError) :=
  ⟨⟨by decide, by decide, by decide⟩,
    grid_mismatch_first_fragment_raises exMol (exFrag 10) [exFrag 12]
      (by decide) (by decide) (by decide)⟩

lemma wy_x_a_cons {n : Nat} (f : Fragment n) (fs : List (Fragment n)) (b r1 r2 : Nat) :
    wy_x_a (f :: fs) b r1 r2 =
      (∑ i ∈ Finset.range f.nalpha, ∑ v ∈ Finset.Ico f.nalpha f.nbf,
        f.orb_a i b r1 * f.orb_a v b r1 * f.orb_a v b r2 * f.orb_a i b r2 /
          (f.eigs_a i - f.eigs_a v)) + wy_x_a fs b r1 r2 := by
  simp [wy_x_a]

lemma wy_x_a_map {n : Nat} (frags : List (Fragment n)) (g : Fragment n → Fragment n)
    (hg : alphaDataPreserving g) (b r1 r2 : Nat) :
    wy_x_a (frags.map g) b r1 r2 = wy_x_a frags b r1 r2 := by
  induction frags with
  | nil => rfl
  | cons f fs ih =>
    obtain ⟨h1, h2, h3, h4⟩ := hg f
    rw [List.map_cons, wy_x_a_cons, wy_x_a_cons, ih, h1, h2, h3, h4]

lemma wy_dvp_map {n : Nat} (mol : Molecule n) (frags : List (Fragment n))
    (g : Fragment n → Fragment n) (hg : alphaDataPreserving g) (dd : List (List ℚ)) :
    wy_dvp mol (frags.map g) dd = wy_dvp mol frags dd := by
  have hden : ∀ b r1 r2, wy_denom (frags.map g) b r1 r2 = wy_denom frags b r1 r2 :=
    fun b r1 r2 => by rw [wy_denom, wy_denom, wy_x_a_map frags g hg]
  have hblk : ∀ b p, wy_dvp_block mol (frags.map g) dd b p = wy_dvp_block mol frags dd b p :=
    fun b p => by
      unfold wy_dvp_block
      exact Finset.sum_congr rfl fun r1 _ => by rw [hden]
  have hvt : ∀ b a c, wy_vtmp mol (frags.map g) dd b a c = wy_vtmp mol frags dd b a c :=
    fun b a c => by
      unfold wy_vtmp
      exact Finset.sum_congr rfl fun p _ => by rw [hblk]
  funext i j
  unfold wy_dvp
  refine Finset.sum_congr rfl fun b _ => Finset.sum_congr rfl fun a _ =>
    Finset.sum_congr rfl fun c _ => ?_
  rw [hvt, hvt]

/-- Claim C6: the OrbitalResponse update `vp_wy_r` returns the identical
matrix for both spin channels; the per-block denominator is the
alpha-channel kernel combined with itself (`x_a + x_a`), and the result is
unchanged when every fragment's beta-channel data is replaced arbitrarily —
no independently built beta-channel kernel enters. -/
theorem vp_wy_r_identical_channels {n : Nat} (nblocks : Nat) (mol : Molecule n)
    (frags : List (Fragment n)) (dd_a dd_b : List (List ℚ)) (h : nblocks = mol.nblocks) :
    vp_wy_r nblocks mol frags dd_a dd_b =
      .ok (wy_dvp mol frags (dd_a ++ dd_b), wy_dvp mol frags (dd_a ++ dd_b)) ∧
    (∀ y, vp_wy_r nblocks mol frags dd_a dd_b = .ok y → y.1 = y.2) ∧
    (∀ b r1 r2, wy_denom frags b r1 r2 = wy_x_a frags b r1 r2 + wy_x_a frags b r1 r2) ∧
    (∀ g, alphaDataPreserving g →
      vp_wy_r nblocks mol (frags.map g) dd_a dd_b = vp_wy_r nblocks mol frags dd_a dd_b) := by
  have hok : vp_wy_r nblocks mol frags dd_a dd_b =
      .ok (wy_dvp mol frags (dd_a ++ dd_b), wy_dvp mol frags (dd_a ++ dd_b)) := by
    rw [vp_wy_r, if_neg (by rw [h]; exact fun hc => hc rfl)]
  refine ⟨hok, fun y hy => ?_, fun b r1 r2 => rfl, fun g hg => ?_⟩
  · rw [hok] at hy
    cases hy
    rfl
  · rw [vp_wy_r, vp_wy_r, wy_dvp_map mol frags g hg]

/-- Witness for `vp_wy_r_identical_channels` at the concrete example
system (block count matches the molecule's). -/
theorem vp_wy_r_identical_channels_witness :
    (1 : Nat) = exMol.nblocks ∧
    (vp_wy_r 1 exMol [exFrag 12] [[1]] [[1]] =
      .ok (wy_dvp exMol [exFrag 12] ([[1]] ++ [[1]]), wy_dvp exMol [exFrag 12] ([[1]] ++ [[1]])) ∧
     (∀ y, vp_wy_r 1 exMol [exFrag 12] [[1]] [[1]] = .ok y → y.1 = y.2) ∧
     (∀ b r1 r2, wy_denom [exFrag 12] b r1 r2 =
        wy_x_a [exFrag 12] b r1 r2 + wy_x_a [exFrag 12] b r1 r2) ∧
     (∀ g, alphaDataPreserving g →
       vp_wy_r 1 exMol ([exFrag 12].map g) [[1]] [[1]] =
         vp_wy_r 1 exMol [exFrag 12] [[1]] [[1]])) :=
  ⟨by decide, vp_wy_r_identical_channels 1 exMol [exFrag 12] [[1]] [[1]] (by decide)⟩

lemma foldl_matAdd_symm {n : Nat} (sel : Fragment n → Mat n) (frags : List (Fragment n))
    (hfr : ∀ f ∈ frags, ∀ i j, sel f i j = sel f j i) (i j : Fin n) :
    (frags.foldl (fun acc f => acc + sel f) (0 : Mat n)) i j =
      (frags.foldl (fun acc f => acc + sel f) (0 : Mat n)) j i := by
  rw [foldl_matAdd_apply, foldl_matAdd_apply]
  have : (frags.map fun f => sel f i j) = frags.map fun f => sel f j i :=
    List.map_congr_left fun f hf => hfr f hf i j
  rw [this]
  rfl

lemma zpm_channel_symm {n : Nat} (mol : Molecule n) (dd : Mat n)
    (h1 : ∀ p q r s, mol.eri p q r s = mol.eri q p r s)
    (h2 : ∀ p q r s, mol.eri p q r s = mol.eri p q s r)
    (h3 : ∀ p q r s, mol.eri p q r s = mol.eri r s p q)
    (hdd : ∀ i j, dd i j = dd j i) (i j : Fin n) :
    zpm_channel mol dd i j = zpm_channel mol dd j i := by
  unfold zpm_channel
  congr 1
  have key : ∀ m l : Fin n, mol.eri j m l i = mol.eri i l m j := fun m l => by
    rw [h1 j m l i, h2 m j l i, h3 m j i l]
  calc (∑ m, ∑ l, mol.eri i m l j * dd m l)
      = ∑ l, ∑ m, mol.eri i m l j * dd m l := Finset.sum_comm
    _ = ∑ m, ∑ l, mol.eri j m l i * dd l m :=
        Finset.sum_congr rfl fun m _ => Finset.sum_congr rfl fun l _ => by rw [key m l]
    _ = ∑ m, ∑ l, mol.eri j m l i * dd m l :=
        Finset.sum_congr rfl fun m _ => Finset.sum_congr rfl fun l _ => by rw [hdd l m]

lemma wy_dvp_symm {n : Nat} (mol : Molecule n) (frags : List (Fragment n))
    (dd : List (List ℚ)) (i j : Fin n) :
    wy_dvp mol frags dd i j = wy_dvp mol frags dd j i := by
  unfold wy_dvp
  refine Finset.sum_congr rfl fun b _ => ?_
  rw [Finset.sum_comm]
  refine Finset.sum_congr rfl fun a _ => Finset.sum_congr rfl fun c _ => ?_
  exact if_congr and_comm (by ring) rfl

lemma vp_zc_ok_symm {n : Nat} (mol : Molecule n) (frags : List (Fragment n))
    (pinv : T4 n → T4 n) (da_mn db_mn : Mat n) (rcond : ℚ) (y : Mat n × Mat n)
    (hy : vp_zc mol frags pinv da_mn db_mn rcond = .ok y) :
    (∀ i j, y.1 i j = y.1 j i) ∧ y.1 = y.2 := by
  unfold vp_zc at hy
  rcases hx : zc_x mol frags with _ | x
  · rw [hx] at hy; cases hy
  · rw [hx] at hy
    cases hy
    refine ⟨fun i j => ?_, rfl⟩
    simp only [Pi.smul_apply, Pi.add_apply, smul_eq_mul, matTrans]
    ring

/-- Claim C4: for every update strategy, the potential increment accumulated
into `vp` is symmetric in each spin channel — `vp_wy_r` and `vp_zc`
symmetrize explicitly (`0.5 * (v + v.T)`), while `vp_dd` and `vp_zpm` are
symmetric given the assumed symmetry of the fragment and reference density
matrices (and the 8-fold symmetry of the two-electron repulsion tensor),
the residual fed to them being built from those matrices. -/
theorem potential_increments_symmetric {n : Nat} (mol : Molecule n)
    (frags : List (Fragment n))
    (h1 : ∀ p q r s, mol.eri p q r s = mol.eri q p r s)
    (h2 : ∀ p q r s, mol.eri p q r s = mol.eri p q s r)
    (h3 : ∀ p q r s, mol.eri p q r s = mol.eri r s p q)
    (hmolA : ∀ i j, mol.Da i j = mol.Da j i) (hmolB : ∀ i j, mol.Db i j = mol.Db j i)
    (hfr : ∀ f ∈ frags, (∀ i j, f.Da i j = f.Da j i) ∧ (∀ i j, f.Db i j = f.Db j i)) :
    (∀ i j,
      (vp_dd (get_delta_density_matrix mol (get_frag_densities_nm frags).1
          (get_frag_densities_nm frags).2).1
        (get_delta_density_matrix mol (get_frag_densities_nm frags).1
          (get_frag_densities_nm frags).2).2).1 i j =
      (vp_dd (get_delta_density_matrix mol (get_frag_densities_nm frags).1
          (get_frag_densities_nm frags).2).1
        (get_delta_density_matrix mol (get_frag_densities_nm frags).1
          (get_frag_densities_nm frags).2).2).1 j i ∧
      (vp_dd (get_delta_density_matrix mol (get_frag_densities_nm frags).1
          (get_frag_densities_nm frags).2).1
        (get_delta_density_matrix mol (get_frag_densities_nm frags).1
          (get_frag_densities_nm frags).2).2).2 i j =
      (vp_dd (get_delta_density_matrix mol (get_frag_densities_nm frags).1
          (get_frag_densities_nm frags).2).1
        (get_delta_density_matrix mol (get_frag_densities_nm frags).1
          (get_frag_densities_nm frags).2).2).2 j i) ∧
    (∀ i j,
      (vp_zpm mol (get_delta_density_matrix mol (get_frag_densities_nm frags).1
          (get_frag_densities_nm frags).2).1
        (get_delta_density_matrix mol (get_frag_densities_nm frags).1
          (get_frag_densities_nm frags).2).2).1 i j =
      (vp_zpm mol (get_delta_density_matrix mol (get_frag_densities_nm frags).1
          (get_frag_densities_nm frags).2).1
        (get_delta_density_matrix mol (get_frag_densities_nm frags).1
          (get_frag_densities_nm frags).2).2).1 j i ∧
      (vp_zpm mol (get_delta_density_matrix mol (get_frag_densities_nm frags).1
          (get_frag_densities_nm frags).2).1
        (get_delta_density_matrix mol (get_frag_densities_nm frags).1
          (get_frag_densities_nm frags).2).2).2 i j =
      (vp_zpm mol (get_delta_density_matrix mol (get_frag_densities_nm frags).1
          (get_frag_densities_nm frags).2).1
        (get_delta_density_matrix mol (get_frag_densities_nm frags).1
          (get_frag_densities_nm frags).2).2).2 j i) ∧
    (∀ nblocks gd_a gd_b y, vp_wy_r nblocks mol frags gd_a gd_b = .ok y →
      (∀ i j, y.1 i j = y.1 j i) ∧ (∀ i j, y.2 i j = y.2 j i)) ∧
    (∀ pinv rcond y,
      vp_zc mol frags pinv
        (get_delta_density_matrix mol (get_frag_densities_nm frags).1
          (get_frag_densities_nm frags).2).1
        (get_delta_density_matrix mol (get_frag_densities_nm frags).1
          (get_frag_densities_nm frags).2).2 rcond = .ok y →
      (∀ i j, y.1 i j = y.1 j i) ∧ (∀ i j, y.2 i j = y.2 j i)) := by
  have hsa : ∀ i j, (get_frag_densities_nm frags).1 i j = (get_frag_densities_nm frags).1 j i :=
    foldl_matAdd_symm (fun f => f.Da) frags (fun f hf => (hfr f hf).1)
  have hsb : ∀ i j, (get_frag_densities_nm frags).2 i j = (get_frag_densities_nm frags).2 j i :=
    foldl_matAdd_symm (fun f => f.Db) frags (fun f hf => (hfr f hf).2)
  have hdda : ∀ i j,
      (get_delta_density_matrix mol (get_frag_densities_nm frags).1
        (get_frag_densities_nm frags).2).1 i j =
      (get_delta_density_matrix mol (get_frag_densities_nm frags).1
        (get_frag_densities_nm frags).2).1 j i := fun i j => by
    show mol.Da i j - _ = mol.Da j i - _
    rw [hmolA i j, hsa i j]
  have hddb : ∀ i j,
      (get_delta_density_matrix mol (get_frag_densities_nm frags).1
        (get_frag_densities_nm frags).2).2 i j =
      (get_delta_density_matrix mol (get_frag_densities_nm frags).1
        (get_frag_densities_nm frags).2).2 j i := fun i j => by
    show mol.Db i j - _ = mol.Db j i - _
    rw [hmolB i j, hsb i j]
  refine ⟨fun i j => ⟨hdda i j, hddb i j⟩,
    fun i j => ⟨zpm_channel_symm mol _ h1 h2 h3 hdda i j,
                zpm_channel_symm mol _ h1 h2 h3 hddb i j⟩,
    fun nblocks gd_a gd_b y hy => ?_, fun pinv rcond y hy => ?_⟩
  · unfold vp_wy_r at hy
    by_cases hnb : nblocks ≠ mol.nblocks
    · rw [if_pos hnb] at hy; cases hy
    · rw [if_neg hnb] at hy
      cases hy
      exact ⟨fun i j => wy_dvp_symm mol frags _ i j, fun i j => wy_dvp_symm mol frags _ i j⟩
  · obtain ⟨hs, hch⟩ := vp_zc_ok_symm mol frags pinv _ _ rcond y hy
    exact ⟨hs, fun i j => by rw [← hch]; exact hs i j⟩

/-- Witness for `potential_increments_symmetric` at a concrete symmetric
system. -/
theorem potential_increments_symmetric_witness :
    ((∀ p q r s, exMol.eri p q r s = exMol.eri q p r s) ∧
     (∀ p q r s, exMol.eri p q r s = exMol.eri p q s r) ∧
     (∀ p q r s, exMol.eri p q r s = exMol.eri r s p q) ∧
     (∀ i j, exMol.Da i j = exMol.Da j i) ∧ (∀ i j, exMol.Db i j = exMol.Db j i) ∧
     (∀ f ∈ [exFrag 12], (∀ i j, f.Da i j = f.Da j i) ∧ (∀ i j, f.Db i j = f.Db j i))) ∧
    (∀ i j,
      (vp_dd (get_delta_density_matrix exMol (get_frag_densities_nm [exFrag 12]).1
          (get_frag_densities_nm [exFrag 12]).2).1
        (get_delta_density_matrix exMol (get_frag_densities_nm [exFrag 12]).1
          (get_frag_densities_nm [exFrag 12]).2).2).1 i j =
      (vp_dd (get_delta_density_matrix exMol (get_frag_densities_nm [exFrag 12]).1
          (get_frag_densities_nm [exFrag 12]).2).1
        (get_delta_density_matrix exMol (get_frag_densities_nm [exFrag 12]).1
          (get_frag_densities_nm [exFrag 12]).2).2).1 j i ∧
      (vp_dd (get_delta_density_matrix exMol (get_frag_densities_nm [exFrag 12]).1
          (get_frag_densities_nm [exFrag 12]).2).1
        (get_delta_density_matrix exMol (get_frag_densities_nm [exFrag 12]).1
          (get_frag_densities_nm [exFrag 12]).2).2).2 i j =
      (vp_dd (get_delta_density_matrix exMol (get_frag_densities_nm [exFrag 12]).1
          (get_frag_densities_nm [exFrag 12]).2).1
        (get_delta_density_matrix exMol (get_frag_densities_nm [exFrag 12]).1
          (get_frag_densities_nm [exFrag 12]).2).2).2 j i) := by
  have hyps : (∀ p q r s, exMol.eri p q r s = exMol.eri q p r s) ∧
      (∀ p q r s, exMol.eri p q r s = exMol.eri p q s r) ∧
      (∀ p q r s, exMol.eri p q r s = exMol.eri r s p q) ∧
      (∀ i j, exMol.Da i j = exMol.Da j i) ∧ (∀ i j, exMol.Db i j = exMol.Db j i) ∧
      (∀ f ∈ [exFrag 12], (∀ i j, f.Da i j = f.Da j i) ∧ (∀ i j, f.Db i j = f.Db j i)) := by
    refine ⟨fun _ _ _ _ => rfl, fun _ _ _ _ => rfl, fun _ _ _ _ => rfl,
      fun _ _ => rfl, fun _ _ => rfl, fun f hf => ?_⟩
    rw [List.mem_singleton] at hf
    subst hf
    exact ⟨fun _ _ => rfl, fun _ _ => rfl⟩
  obtain ⟨a1, a2, a3, a4, a5, a6⟩ := hyps
  exact ⟨⟨a1, a2, a3, a4, a5, a6⟩,
    (potential_increments_symmetric exMol [exFrag 12] a1 a2 a3 a4 a5 a6).1⟩

lemma zc_x_foldl_some {n : Nat} (mol : Molecule n) (h : mol.nalpha = mol.nbeta) :
    ∀ (fs : List (Fragment n)) (x : T4 n),
      ∃ y, fs.foldl
        (fun acc f => if mol.nalpha = mol.nbeta then some (zc_x_frag n mol f) else acc)
        (some x) = some y
  | [], x => ⟨x, rfl⟩
  | f :: fs, x => by
    rw [List.foldl_cons, if_pos h]
    exact zc_x_foldl_some mol h fs _

lemma vp_zc_ok {n : Nat} (mol : Molecule n) (frags : List (Fragment n))
    (pinv : T4 n → T4 n) (da_mn db_mn : Mat n) (rcond : ℚ)
    (h : mol.nalpha = mol.nbeta) (hne : frags ≠ []) :
    ∃ y, vp_zc mol frags pinv da_mn db_mn rcond = .ok y := by
  obtain ⟨f, fs, rfl⟩ : ∃ f fs, frags = f :: fs := by
    cases frags with
    | nil => exact absurd rfl hne
    | cons f fs => exact ⟨f, fs, rfl⟩
  have hx : ∃ x, zc_x mol (f :: fs) = some x := by
    rw [zc_x, List.foldl_cons, if_pos h]
    exact zc_x_foldl_some mol h fs _
  obtain ⟨x, hx⟩ := hx
  unfold vp_zc
  rw [hx]
  exact ⟨_, rfl⟩

lemma dispatch_ok {n : Nat} (cfg : Config n) (nblocks : Nat) (frags : List (Fragment n))
    (gdd : List (List ℚ) × List (List ℚ) × ℚ) (mdd : Mat n × Mat n)
    (hzc : cfg.method = .zc → cfg.mol.nalpha = cfg.mol.nbeta ∧ frags ≠ [])
    (hwy : cfg.method = .wy_r → nblocks = cfg.mol.nblocks) :
    ∃ dvp, dispatch cfg nblocks frags gdd mdd = .ok dvp := by
  rcases hm : cfg.method with _ | _ | _ | _
  · exact ⟨_, by unfold dispatch; rw [hm]⟩
  · exact ⟨_, by unfold dispatch; rw [hm]⟩
  · obtain ⟨y, hy⟩ := vp_zc_ok cfg.mol frags cfg.pinv mdd.1 mdd.2 (1 / 1000000)
      (hzc hm).1 (hzc hm).2
    exact ⟨y, by unfold dispatch; rw [hm]; exact hy⟩
  · refine ⟨(wy_dvp cfg.mol frags (gdd.1 ++ gdd.2.1), wy_dvp cfg.mol frags (gdd.1 ++ gdd.2.1)), ?_⟩
    unfold dispatch
    rw [hm, vp_wy_r, if_neg (by rw [hwy hm]; exact fun hc => hc rfl)]

lemma iterBody_ok {n : Nat} (cfg : Config n) (s : LoopSt n)
    (hzc : cfg.method = .zc → cfg.mol.nalpha = cfg.mol.nbeta ∧ s.engine.frags ≠ [])
    (hwy : cfg.method = .wy_r → s.engine.nblocks = cfg.mol.nblocks) :
    ∃ s', iterBody cfg s = .ok s' ∧
      s'.l1_list.length = s.l1_list.length + 1 ∧
      s'.ep_list.length = s.ep_list.length + 1 ∧
      s'.engine.frags.length = s.engine.frags.length ∧
      s'.engine.nblocks = s.engine.nblocks ∧
      s'.engine.vp = some (s'.vp_a, s'.vp_b) := by
  obtain ⟨dvp, hdvp⟩ := dispatch_ok cfg s.engine.nblocks (resolveFrags cfg s)
    (get_delta_density_grid cfg.mol
      (get_frag_densities_r cfg.mol (resolveFrags cfg s)).1
      (get_frag_densities_r cfg.mol (resolveFrags cfg s)).2)
    (get_delta_density_matrix cfg.mol
      (get_frag_densities_nm (resolveFrags cfg s)).1
      (get_frag_densities_nm (resolveFrags cfg s)).2)
    (fun hm => ⟨(hzc hm).1, by simpa [resolveFrags] using (hzc hm).2⟩) hwy
  refine ⟨_, by rw [iterBody, hdvp]; rfl, ?_, ?_, ?_, ?_, ?_⟩
  · simp
  · simp
  · simp [resolveFrags]
  · rfl
  · rfl

lemma vp_loop_raises {n : Nat} (cfg : Config n) (maxiter : Nat)
    (hzc : cfg.method = .zc → cfg.mol.nalpha = cfg.mol.nbeta) :
    ∀ (fuel step : Nat) (s : LoopSt n), step + fuel = maxiter + 1 → step ≤ maxiter →
      (cfg.method = .zc → s.engine.frags ≠ []) →
      (cfg.method = .wy_r → s.engine.nblocks = cfg.mol.nblocks) →
      ∃ s', vp_loop cfg maxiter fuel step s = .raised .maxIterationsExceeded s' ∧
        s'.l1_list.length = s.l1_list.length + fuel ∧
        s'.ep_list.length = s.ep_list.length + fuel ∧
        s'.engine.vp = some (s'.vp_a, s'.vp_b) := by
  intro fuel
  induction fuel with
  | zero => intro step s hsum hle; omega
  | succ k ih =>
    intro step s hsum hle hfr hwy
    obtain ⟨s', hs', hl1, hep, hfrlen, hnb, hvp⟩ :=
      iterBody_ok cfg s (fun hm => ⟨hzc hm, hfr hm⟩) hwy
    by_cases hstep : step = maxiter
    · have hk : k = 0 := by omega
      subst hk
      refine ⟨s', ?_, by omega, by omega, hvp⟩
      rw [vp_loop, hs']
      show (if step = maxiter then HandlerOutcome.raised PdftError.maxIterationsExceeded s'
        else vp_loop cfg maxiter 0 (step + 1) s') = _
      rw [if_pos hstep]
    · have hfr' : cfg.method = .zc → s'.engine.frags ≠ [] := fun hm => by
        intro hnil
        have h0 : s'.engine.frags.length = 0 := by rw [hnil]; rfl
        rw [hfrlen] at h0
        exact hfr hm (List.length_eq_zero.mp h0)
      have hwy' : cfg.method = .wy_r → s'.engine.nblocks = cfg.mol.nblocks := fun hm => by
        rw [hnb]; exact hwy hm
      obtain ⟨s'', hs'', hl1', hep', hvp'⟩ :=
        ih (step + 1) s' (by omega) (by omega) hfr' hwy'
      refine ⟨s'', ?_, by omega, by omega, hvp'⟩
      rw [vp_loop, hs']
      show (if step = maxiter then HandlerOutcome.raised PdftError.maxIterationsExceeded s'
        else vp_loop cfg maxiter k (step + 1) s') = _
      rw [if_neg hstep]
      exact hs''

/-- Claim C1: with no initial-guess mode selected, for every iteration bound
`maxiter ≥ 0` and every selected update strategy (for `zc`: on a system it
can handle; for `wy_r`: with the engine's stored block count, fixed at
construction, matching the molecule's), the inversion driver always raises
`MaxIterationsExceeded`, and only at the iteration of index `maxiter`: the
raise is `.raised` (not a strategy error), the histories have exactly
`maxiter + 1` entries — one appended per completed loop pass, indices `0`
through `maxiter`, so the raise never occurs earlier — and the engine's
potential at raise time is the accumulator including the last iteration's
update, which was applied before the raise.  The accepted tolerance
parameter `atol` has no effect: runs with different `atol` are equal. -/
theorem vp_handler_always_raises_max_iterations {n : Nat} (cfg : Config n)
    (maxiter : Nat) (atol atol' : ℚ) (E : EngineSt n)
    (hzc : cfg.method = .zc → cfg.mol.nalpha = cfg.mol.nbeta ∧ E.frags ≠ [])
    (hwy : cfg.method = .wy_r → E.nblocks = cfg.mol.nblocks) :
    (∃ s, vp_handler cfg maxiter atol none E = .raised .maxIterationsExceeded s ∧
      s.l1_list.length = maxiter + 1 ∧ s.ep_list.length = maxiter + 1 ∧
      s.engine.vp = some (s.vp_a, s.vp_b)) ∧
    vp_handler cfg maxiter atol none E = vp_handler cfg maxiter atol' none E := by
  obtain ⟨s, hs, hl1, hep, hvp⟩ := vp_loop_raises cfg maxiter (fun hm => (hzc hm).1)
    (maxiter + 1) 0 { engine := E, vp_a := 0, vp_b := 0, l1_list := [], ep_list := [] }
    (by omega) (by omega) (fun hm => (hzc hm).2) hwy
  exact ⟨⟨s, hs, by simpa using hl1, by simpa using hep, hvp⟩, rfl⟩

/-- Witness for `vp_handler_always_raises_max_iterations`: bound 2,
method `dd`, two different tolerances. -/
theorem vp_handler_always_raises_max_iterations_witness :
    (∃ s, vp_handler exCfg 2 (1 / 100000) none exEng = .raised .maxIterationsExceeded s ∧
      s.l1_list.length = 2 + 1 ∧ s.ep_list.length = 2 + 1 ∧
      s.engine.vp = some (s.vp_a, s.vp_b)) ∧
    vp_handler exCfg 2 (1 / 100000) none exEng = vp_handler exCfg 2 (3 / 100000) none exEng :=
  vp_handler_always_raises_max_iterations exCfg 2 (1 / 100000) (3 / 100000) exEng
    (fun h => absurd h (by decide)) (fun h => absurd h (by decide))

end PDFT
